import Mathlib

/-!
Verification development for the qr-generator repository
(backend/app/services + backend/app/routers/generate.py).

The Python source is shallowly embedded: pure computations become Lean
functions, Python floats are modelled as exact rationals (`ℚ`), Python
`int(...)` truncation is `pyint`, and side-effecting parts (the PIL draw
calls, the job store, the file system) become explicit data: lists of
draw operations, explicit job-event traces, and an explicit list of
existing output paths threaded through the batch fold.
-/

namespace QRGen

/-- Python `int(x)` on a float: truncation toward zero, modelled on `ℚ`. -/
def pyint (q : ℚ) : Int :=
  if q < 0 then -(Int.floor (-q)) else Int.floor q

/-- Python `str.lower()` (character-wise, as the source only compares
against the ASCII literals `"nan"`, `"none"`, `""`). -/
def pyLower (s : String) : String := ⟨s.data.map Char.toLower⟩

/-- Python `str.upper()`. -/
def pyUpper (s : String) : String := ⟨s.data.map Char.toUpper⟩

/-- Python `str.strip()`: remove leading and trailing whitespace. -/
def pyStrip (s : String) : String :=
  ⟨((s.data.dropWhile Char.isWhitespace).reverse.dropWhile
      Char.isWhitespace).reverse⟩

/-! ## pdf_service.py — `_adjust_font_size`

```python
def _adjust_font_size(c, text, max_width, initial=30, minimum=8):
    size = initial
    while size >= minimum:
        c.setFont("DejaVuSans-Bold", size)
        if c.stringWidth(text, "DejaVuSans-Bold", size) <= max_width:
            return size
        size -= 1
    return minimum
```

`c.stringWidth(text, font, size)` is a pure function of the text and the
size (for the fixed registered font), modelled as a parameter
`sw : Int → ℚ` (the width of the given text at each size). -/

/-- The body of the `while size >= minimum` loop; the fuel is the number
of loop iterations still allowed, `size + 1 - minimum` at entry, so the
loop exits (returning `minimum`) exactly when `size` drops below
`minimum`. -/
def adjust_font_size_go (sw : Int → ℚ) (max_width : ℚ) (minimum : Int) :
    ℕ → Int → Int
  | 0, _ => minimum
  | fuel + 1, size =>
      if sw size ≤ max_width then size
      else adjust_font_size_go sw max_width minimum fuel (size - 1)

def adjust_font_size (sw : Int → ℚ) (max_width : ℚ) (size minimum : Int) : Int :=
  adjust_font_size_go sw max_width minimum ((size + 1 - minimum).toNat) size

/-! ## pdf_service.py — text lines of `generate_accreditation`

The overlay text drawing (lines 160–188 of pdf_service.py):

```python
    last_upper = attendee_lastname.upper()
    font_last = _adjust_font_size(c, last_upper, max_text_w, initial=22)
    c.drawCentredString(page_cx, y_last, last_upper)

    first_upper = attendee_name.upper()
    font_first = _adjust_font_size(c, first_upper, max_text_w, initial=22)
    c.drawCentredString(page_cx, y_first, first_upper)

    if attendee_company and attendee_company.lower() not in ("nan", "none", ""):
        company_upper = attendee_company.upper()
        font_company = _adjust_font_size(c, company_upper, max_text_w, initial=18)
        ...
        c.drawCentredString(page_cx, y_company, company_upper)
```

The draw calls are reified as a list of `TextLine` values.  String width
is a parameter `sw : String → Int → ℚ` (reportlab font metrics). -/

inductive LineKind
  | lastName
  | firstName
  | company
deriving DecidableEq, Repr

structure TextLine where
  kind : LineKind
  text : String
  size : Int
deriving DecidableEq, Repr

/-- Python truthiness of the company string together with the null-like
check `attendee_company and attendee_company.lower() not in ("nan", "none", "")`. -/
def companyShown (attendee_company : String) : Bool :=
  attendee_company ≠ "" &&
    !(pyLower attendee_company = "nan" ∨ pyLower attendee_company = "none" ∨
      pyLower attendee_company = "")

/-- The three (or two) `drawCentredString` calls of `generate_accreditation`,
in source order, with the fitted font size of each line. -/
def overlayLines (sw : String → Int → ℚ) (max_text_w : ℚ)
    (attendee_name attendee_lastname attendee_company : String) : List TextLine :=
  let last_upper := pyUpper attendee_lastname
  let font_last := adjust_font_size (sw last_upper) max_text_w 22 8
  let first_upper := pyUpper attendee_name
  let font_first := adjust_font_size (sw first_upper) max_text_w 22 8
  [⟨.lastName, last_upper, font_last⟩, ⟨.firstName, first_upper, font_first⟩] ++
    (if companyShown attendee_company then
      let company_upper := pyUpper attendee_company
      let font_company := adjust_font_size (sw company_upper) max_text_w 18 8
      [⟨.company, company_upper, font_company⟩]
    else [])

/-! ## qr_service.py — colors and finder zones -/

structure RGB where
  r : ℕ
  g : ℕ
  b : ℕ
deriving DecidableEq, Repr

/-- Hex digit value (used by `_parse_color`). -/
def hexVal (c : Char) : ℕ :=
  if c.isDigit then c.toNat - 48
  else if ('a' ≤ c ∧ c ≤ 'f') then c.toNat - 87
  else if ('A' ≤ c ∧ c ≤ 'F') then c.toNat - 55
  else 0

/-- `_parse_color`: `#RRGGBB` or `#RGB` to an RGB triple. -/
def parse_color (color : String) : RGB :=
  let cs := (color.toList.dropWhile (· = '#'))
  let cs := if cs.length = 3 then (cs.map (fun ch => [ch, ch])).flatten else cs
  let at2 := fun (i : ℕ) => hexVal (cs.getD i '0') * 16 + hexVal (cs.getD (i+1) '0')
  ⟨at2 0, at2 2, at2 4⟩

/-- The three finder-pattern corner origins `[(0, 0), (0, n - 7), (n - 7, 0)]`
(as in `_finder_zones` and `_render_png`). -/
def finder_corners (n : ℕ) : List (Int × Int) :=
  [(0, 0), (0, (n : Int) - 7), ((n : Int) - 7, 0)]

/-- `_finder_zones(n)`: all in-grid cells scanned by
`for r in range(br - 1, br + 8): for c in range(bc - 1, bc + 8)`
over the three corners, keeping `0 <= r < n and 0 <= c < n`. -/
def finder_zones (n : ℕ) : Finset (ℕ × ℕ) :=
  (Finset.range n ×ˢ Finset.range n).filter fun rc =>
    ∃ b ∈ finder_corners n,
      b.1 - 1 ≤ (rc.1 : Int) ∧ (rc.1 : Int) < b.1 + 8 ∧
      b.2 - 1 ≤ (rc.2 : Int) ∧ (rc.2 : Int) < b.2 + 8

/-- The finder zones as the spec words them: the union over the three
corners of the 7×7 block `[br, br+6] × [bc, bc+6]` expanded by a
one-cell border (all cells at Chebyshev distance ≤ 1 of a block cell),
clipped to the grid. -/
def specFinderZones (n : ℕ) : Finset (ℕ × ℕ) :=
  (Finset.range n ×ˢ Finset.range n).filter fun rc =>
    ∃ b ∈ finder_corners n, ∃ di ∈ List.range 7, ∃ dj ∈ List.range 7,
      b.1 + di - 1 ≤ (rc.1 : Int) ∧ (rc.1 : Int) ≤ b.1 + di + 1 ∧
      b.2 + dj - 1 ≤ (rc.2 : Int) ∧ (rc.2 : Int) ≤ b.2 + dj + 1

/-- Cell lookup in the boolean matrix (out of range reads as unset). -/
def cellAt (matrix : List (List Bool)) (r c : ℕ) : Bool :=
  (matrix.getD r []).getD c false

/-- The cells drawn as ordinary (rounded) data modules by `_render_png`
and `_render_svg`: the enumeration loop skips `(r, c) in finders` and
unset cells, and draws everything else. -/
def dataModuleCells (matrix : List (List Bool)) : List (ℕ × ℕ) :=
  let n := matrix.length
  ((List.range matrix.length).map (fun r =>
    (List.range (matrix.getD r []).length).filterMap (fun c =>
      if (r, c) ∈ finder_zones n then none
      else if !(matrix.getD r []).getD c false then none
      else some (r, c)))).flatten

/-! ## qr_service.py — draw operations of `_render_png`

The Pillow calls are reified: `draw.rounded_rectangle` becomes a
`DrawOp.rect` (with the `int(...)` casts of `_draw_rounded_rect`) and the
two `img.paste` calls of the logo branch become paste operations. -/

inductive DrawOp
  | rect (x0 y0 x1 y1 radius : Int) (fill : RGB)
  | pastePad (x y w h : Int)
  | pasteLogo (x y w h : Int)
deriving DecidableEq, Repr

/-- `_draw_rounded_rect`: Pillow rounded rectangle with `int()` casts. -/
def draw_rounded_rect (x0 y0 x1 y1 radius : ℚ) (fill : RGB) : DrawOp :=
  .rect (pyint x0) (pyint y0) (pyint x1) (pyint y1) (pyint radius) fill

/-- `_draw_finder_pattern`: outer 7×7 block, inner 5×5 background inset,
3×3 center dot, with radii `0.22 / 0.18 / 0.35` of the side scaled by
roundness. -/
def draw_finder_pattern (origin_r origin_c : Int) (cell : ℕ)
    (bg eye : RGB) (roundness : ℚ) : List DrawOp :=
  let px : ℚ := (origin_c : ℚ) * cell
  let py : ℚ := (origin_r : ℚ) * cell
  let outer_w : ℚ := 7 * cell
  let outer_r : ℚ := outer_w * roundness * (22/100)
  let inner_offset : ℚ := cell
  let inner_w : ℚ := 5 * cell
  let inner_r : ℚ := inner_w * roundness * (18/100)
  let dot_offset : ℚ := (cell : ℚ) * 2
  let dot_w : ℚ := 3 * cell
  let dot_r : ℚ := dot_w * roundness * (35/100)
  [draw_rounded_rect px py (px + outer_w) (py + outer_w) outer_r eye,
   draw_rounded_rect (px + inner_offset) (py + inner_offset)
     (px + inner_offset + inner_w) (py + inner_offset + inner_w) inner_r bg,
   draw_rounded_rect (px + dot_offset) (py + dot_offset)
     (px + dot_offset + dot_w) (py + dot_offset + dot_w) dot_r eye]

/-- The logo scaling arithmetic of `_render_png` (lines 225–238):

```python
max_logo_cells = n * logo_scale
max_logo_px = int(max_logo_cells * cell_px)
max_logo_px = min(max_logo_px, int(img_size * 0.28))  # hard cap 28%
lw, lh = logo.size
ratio = min(max_logo_px / lw, max_logo_px / lh)
new_lw = int(lw * ratio)
new_lh = int(lh * ratio)
lx = (img_size - new_lw) // 2
ly = (img_size - new_lh) // 2
``` -/
structure LogoFit where
  img_size : ℕ
  max_logo_px : Int
  ratio : ℚ
  new_lw : Int
  new_lh : Int
  lx : Int
  ly : Int
deriving DecidableEq, Repr

def logoFit (n lw lh : ℕ) (logo_scale : ℚ) (cell_px border_cells : ℕ) : LogoFit :=
  let total_cells := n + 2 * border_cells
  let img_size := total_cells * cell_px
  let max_logo_cells : ℚ := (n : ℚ) * logo_scale
  let m1 := pyint (max_logo_cells * cell_px)
  let max_logo_px := min m1 (pyint ((img_size : ℚ) * (28/100)))
  let ratio := min ((max_logo_px : ℚ) / lw) ((max_logo_px : ℚ) / lh)
  let new_lw := pyint ((lw : ℚ) * ratio)
  let new_lh := pyint ((lh : ℚ) * ratio)
  ⟨img_size, max_logo_px, ratio, new_lw, new_lh,
    Int.fdiv ((img_size : Int) - new_lw) 2, Int.fdiv ((img_size : Int) - new_lh) 2⟩

/-- Result of `_render_png`: the image size, the reified draw/paste
operations in source order, whether the logo branch ran, and the logo
fit it used (model bookkeeping for the logo branch). -/
structure RenderResult where
  img_size : ℕ
  ops : List DrawOp
  logoApplied : Bool
  logo : Option LogoFit
deriving DecidableEq, Repr

/-- `_render_png`.  External effects are explicit parameters:
`fsExists` models `os.path.exists`, and `logoSize p` models
`Image.open(p).size` — `none` when the file exists but Pillow cannot
decode it, in which case the exception propagates (modelled as
`Except.error`).  A missing file is skipped silently by the
`if logo_path and os.path.exists(logo_path)` guard. -/
def render_png (fsExists : String → Bool) (logoSize : String → Option (ℕ × ℕ))
    (matrix : List (List Bool)) (logo_path : Option String)
    (fg bg eye : RGB) (module_roundness logo_scale : ℚ)
    (cell_px border_cells : ℕ) (gap_ratio : ℚ) : Except String RenderResult :=
  let n := matrix.length
  let total_cells := n + 2 * border_cells
  let img_size := total_cells * cell_px
  let gap : Int := pyint ((cell_px : ℚ) * gap_ratio)
  let mod_r : Int := pyint (((cell_px : ℚ) - 2 * (gap : ℚ)) / 2 * module_roundness)
  let dataOps := (dataModuleCells matrix).map fun rc =>
    let px : ℚ := ((rc.2 : ℚ) + border_cells) * cell_px + (gap : ℚ)
    let py : ℚ := ((rc.1 : ℚ) + border_cells) * cell_px + (gap : ℚ)
    let pw : ℚ := (cell_px : ℚ) - 2 * (gap : ℚ)
    draw_rounded_rect px py (px + pw) (py + pw) (mod_r : ℚ) fg
  let finderOps := ((finder_corners n).map fun b =>
    draw_finder_pattern (b.1 + border_cells) (b.2 + border_cells)
      cell_px bg eye module_roundness).flatten
  match logo_path with
  | none =>
      .ok ⟨img_size, dataOps ++ finderOps, false, none⟩
  | some p =>
      if fsExists p then
        match logoSize p with
        | none => .error "PIL.UnidentifiedImageError"
        | some (lw, lh) =>
            let lf := logoFit n lw lh logo_scale cell_px border_cells
            let pad : Int := pyint ((cell_px : ℚ) * (3/10))
            let logoOps :=
              [DrawOp.pastePad (lf.lx - pad) (lf.ly - pad)
                 (lf.new_lw + 2 * pad) (lf.new_lh + 2 * pad),
               DrawOp.pasteLogo lf.lx lf.ly lf.new_lw lf.new_lh]
            .ok ⟨img_size, dataOps ++ finderOps ++ logoOps, true, some lf⟩
      else
        .ok ⟨img_size, dataOps ++ finderOps, false, none⟩

/-! ## qr_service.py — `_render_svg` and `generate_styled_qr`

SVG output is a plain string built from the same matrix walk and zone
logic.  Python float formatting `f"{x:.3f}"` is modelled by `fmt3`
(three decimals, magnitude rounding). -/

/-- Zero-padded three-digit fractional part. -/
def pad3 (k : ℕ) : String :=
  if k < 10 then "00" ++ toString k
  else if k < 100 then "0" ++ toString k
  else toString k

/-- Model of Python `f"{x:.3f}"` on the exact rational value. -/
def fmt3 (q : ℚ) : String :=
  let neg := q < 0
  let m := Int.floor (|q| * 1000 + 1/2)
  (if neg ∧ m ≠ 0 then "-" else "") ++ toString (m / 1000) ++ "." ++ pad3 (m % 1000).toNat

/-- `_svg_rounded_rect`. -/
def svg_rounded_rect (x y w h radius : ℚ) (fill : String) : String :=
  "<rect x=\"" ++ fmt3 x ++ "\" y=\"" ++ fmt3 y ++ "\" width=\"" ++ fmt3 w ++
    "\" height=\"" ++ fmt3 h ++ "\" rx=\"" ++ fmt3 radius ++ "\" ry=\"" ++
    fmt3 radius ++ "\" fill=\"" ++ fill ++ "\"/>\n"

/-- `_svg_finder`. -/
def svg_finder (origin_r origin_c : Int) (cell : ℚ)
    (eye_hex bg_hex : String) (roundness : ℚ) : String :=
  let px := (origin_c : ℚ) * cell
  let py := (origin_r : ℚ) * cell
  let outer_w := 7 * cell
  let outer_r := outer_w * roundness * (22/100)
  let inner_offset := cell
  let inner_w := 5 * cell
  let inner_r := inner_w * roundness * (18/100)
  let dot_offset := 2 * cell
  let dot_w := 3 * cell
  let dot_r := dot_w * roundness * (35/100)
  svg_rounded_rect px py outer_w outer_w outer_r eye_hex ++
    svg_rounded_rect (px + inner_offset) (py + inner_offset) inner_w inner_w
      inner_r bg_hex ++
    svg_rounded_rect (px + dot_offset) (py + dot_offset) dot_w dot_w dot_r eye_hex

/-- `_render_svg`: header, background, rounded data modules (same
skip-finder-zone walk as the PNG), three finder patterns, footer. -/
def render_svg (matrix : List (List Bool)) (fg_hex bg_hex eye_hex : String)
    (module_roundness : ℚ) (cell_svg : ℚ) (border_cells : ℕ)
    (gap_ratio : ℚ) : String :=
  let n := matrix.length
  let total_cells := n + 2 * border_cells
  let size : ℚ := (total_cells : ℚ) * cell_svg
  let gap := cell_svg * gap_ratio
  let mod_w := cell_svg - 2 * gap
  let mod_r := mod_w / 2 * module_roundness
  let header :=
    "<svg xmlns=\"http://www.w3.org/2000/svg\" viewBox=\"0 0 " ++ fmt3 size ++
      " " ++ fmt3 size ++ "\" width=\"" ++ fmt3 size ++ "\" height=\"" ++
      fmt3 size ++ "\" shape-rendering=\"geometricPrecision\">\n"
  let background :=
    "<rect width=\"" ++ fmt3 size ++ "\" height=\"" ++ fmt3 size ++
      "\" fill=\"" ++ bg_hex ++ "\"/>\n"
  let dataMods := ((dataModuleCells matrix).map fun rc =>
    let px := ((rc.2 : ℚ) + border_cells) * cell_svg + gap
    let py := ((rc.1 : ℚ) + border_cells) * cell_svg + gap
    svg_rounded_rect px py mod_w mod_w mod_r fg_hex).foldl (· ++ ·) ""
  let finderStr := ((finder_corners n).map fun b =>
    svg_finder (b.1 + border_cells) (b.2 + border_cells) cell_svg eye_hex
      bg_hex module_roundness).foldl (· ++ ·) ""
  header ++ background ++ dataMods ++ finderStr ++ "</svg>\n"

/-- `generate_styled_qr` (qr_service.py lines 368–454), with the
external collaborators explicit:

* `enc` is the QR matrix source (`_get_qr_matrix`, i.e. the qrcode
  library called at `ERROR_CORRECT_H`) — a function, hence deterministic;
* `fsExists` / `logoSize` are the file-system and Pillow reads;
* `now` reifies ambient wall-clock time: the code never consults it in
  this call (no `datetime` use in qr_service.py), which the determinism
  theorem states by quantifying over it.

Saving of the PNG/SVG to disk (`output_png` / `output_svg`) is a write
of the returned values and is omitted.  The returned pair models
`(img, svg_string)`. -/
def generate_styled_qr (enc : String → List (List Bool))
    (fsExists : String → Bool) (logoSize : String → Option (ℕ × ℕ))
    (now : ℕ) (data : String) (logo_path : Option String)
    (fg_color bg_color : String) (eye_color : Option String)
    (module_roundness logo_scale : ℚ) (cell_px border_cells : ℕ) :
    Except String (RenderResult × String) := do
  let _ := now
  let fg := parse_color fg_color
  let bg := parse_color bg_color
  let eye := match eye_color with | some e => parse_color e | none => fg
  let eye_hex := match eye_color with | some e => e | none => fg_color
  let matrix := enc data
  let img ← render_png fsExists logoSize matrix logo_path fg bg eye
    module_roundness logo_scale cell_px border_cells (12/100)
  let svg_string := render_svg matrix fg_color bg_color eye_hex
    module_roundness 10 border_cells (12/100)
  return (img, svg_string)

/-! ## excel_service.py — `resolve_template_role` and `iter_attendees` -/

def resolve_template_role (ticket_type : String)
    (types_staff types_speaker : List String) : String :=
  if ticket_type ∈ types_staff then "staff"
  else if ticket_type ∈ types_speaker then "speaker"
  else "attendee"

/-- A raw spreadsheet cell as seen through `row.get(col, default)`:
`missing` (column absent, the default is returned), Python `None`,
pandas `NaN` (a float — truthy, and `str(...)` is `"nan"`), or text. -/
inductive Cell
  | missing
  | pynone
  | nanval
  | text (s : String)
deriving DecidableEq, Repr

/-- `str(row.get(col, default))`. -/
def cellStr (default : String) : Cell → String
  | .missing => default
  | .pynone => "None"
  | .nanval => "nan"
  | .text s => s

/-- Python truthiness of the raw cell value (`bool(float("nan"))` is true). -/
def cellTruthy : Cell → Bool
  | .missing => false
  | .pynone => false
  | .nanval => true
  | .text s => s ≠ ""

structure Row where
  idCell : Cell
  firstCell : Cell
  lastCell : Cell
  ticketCell : Cell
  companyCell : Cell
deriving DecidableEq, Repr

/-- Which of the mapped columns are present in `df.columns`. -/
structure SheetCfg where
  hasTicketCol : Bool
  hasCompanyCol : Bool
deriving DecidableEq, Repr

structure AttendeeR where
  id : String
  first_name : String
  last_name : String
  ticket_type : String
  company : String
deriving DecidableEq, Repr

/-- The company normalization of `iter_attendees`:
`company_raw = row.get(col) if col in df.columns else None`, then
`str(company_raw).strip() if company_raw and str(company_raw).lower()
not in ("nan", "none", "") else ""`. -/
def rowCompany (hasCompanyCol : Bool) (row : Row) : String :=
  let company_raw := if hasCompanyCol then row.companyCell else Cell.pynone
  let s := cellStr "None" company_raw
  if cellTruthy company_raw ∧
      ¬(pyLower s = "nan" ∨ pyLower s = "none" ∨ pyLower s = "") then
    pyStrip s
  else ""

/-- One row's normalized fields (before the validity filter). -/
def rowToRecord (cfg : SheetCfg) (row : Row) : AttendeeR :=
  { id := pyStrip (cellStr "" row.idCell)
    first_name := pyStrip (cellStr "" row.firstCell)
    last_name := pyStrip (cellStr "" row.lastCell)
    ticket_type :=
      if cfg.hasTicketCol then pyStrip (cellStr "" row.ticketCell) else ""
    company := rowCompany cfg.hasCompanyCol row }

/-- The row filter:
`if not attendee_id or attendee_id.lower() in ("nan", "none")
   or not first_name or not last_name: continue`. -/
def rowValid (a : AttendeeR) : Bool :=
  !(a.id = "" ∨ pyLower a.id = "nan" ∨ pyLower a.id = "none" ∨
    a.first_name = "" ∨ a.last_name = "")

/-- `iter_attendees`: normalize every row and keep the valid ones. -/
def iter_attendees (cfg : SheetCfg) (rows : List Row) : List AttendeeR :=
  rows.filterMap fun row =>
    if rowValid (rowToRecord cfg row) then some (rowToRecord cfg row) else none

/-! ## generate.py / job_service.py — the generation job pipeline

`_run_generation` and `_process_one` are embedded with the external
world explicit: the output directory is the list `fs` of paths that
exist (`os.path.exists` / writes of `generate_accreditation`), the
outcome of one composition is the deterministic `composeResult` (the
template, placement and style are fixed for the whole job, so whether
and where `generate_accreditation` raises depends on the record), and
the job store mutations become a list of `JobEvent`s in call order.
Records are processed in list order: the semaphore-bounded
`asyncio.gather` interleaves them arbitrarily, but each record's
outcome and the final counters depend only on the set of pre-existing
files, which the sequential fold preserves. -/

inductive Outcome
  | generated
  | skipped
  | failedRec
deriving DecidableEq, Repr

/-- How one `generate_accreditation` call ends.  The call runs
`shutil.copyfile(template_path, output_path)` (pdf_service.py line 130)
before the steps that can raise (opening the template with `fitz`, QR
generation, overlay, merge), so an exception raised after that copy
still leaves the output file on disk; only a raise before the copy
(e.g. `_ensure_fonts` not finding the font file) leaves nothing. -/
inductive ComposeOutcome
  | ok
  | raiseBefore
  | raiseAfter
deriving DecidableEq, Repr

/-- `output_pdf = os.path.join(work_dir, f"attendee-{attendee['id']}.pdf")`
(the work-dir prefix is common to all records and dropped). -/
def output_pdf_name (a : AttendeeR) : String :=
  "attendee-" ++ a.id ++ ".pdf"

structure GenConfig where
  incremental : Bool
  positions : String → Option (Int × Int × Int)
  types_staff : List String
  types_speaker : List String
  composeResult : AttendeeR → ComposeOutcome

/-- `pos = req.positions.get(TemplateRole(role_str)) or
req.positions.get(TemplateRole.attendee)`. -/
def lookup_pos (cfg : GenConfig) (role_str : String) : Option (Int × Int × Int) :=
  (cfg.positions role_str).orElse (fun _ => cfg.positions "attendee")

/-- `_process_one` (generate.py lines 126–166): skip check first, then
placement lookup with fallback to the general-attendee role (`if not
pos` → failed), then the composition attempt with its per-record
`except`.  A composition that raises after the template byte-copy
leaves the (partial) output file on disk even though the record is
counted as failed.  Returns the record's outcome and the updated set
of existing files. -/
def process_one (cfg : GenConfig) (fs : List String) (a : AttendeeR) :
    Outcome × List String :=
  if cfg.incremental ∧ output_pdf_name a ∈ fs then
    (.skipped, fs)
  else if (lookup_pos cfg (resolve_template_role a.ticket_type cfg.types_staff
      cfg.types_speaker)).isSome = false then
    (.failedRec, fs)
  else if cfg.composeResult a = ComposeOutcome.ok then
    (.generated, output_pdf_name a :: fs)
  else if cfg.composeResult a = ComposeOutcome.raiseAfter then
    (.failedRec, output_pdf_name a :: fs)
  else
    (.failedRec, fs)

/-- The per-record fan-out of `_run_generation`: every attendee is
attempted, outcomes are collected in order, the file set is threaded. -/
def run_job (cfg : GenConfig) (fs : List String) :
    List AttendeeR → List (AttendeeR × Outcome) × List String
  | [] => ([], fs)
  | a :: rest =>
      let p := process_one cfg fs a
      let q := run_job cfg p.2 rest
      ((a, p.1) :: q.1, q.2)

def countOutcome (o : Outcome) (l : List (AttendeeR × Outcome)) : ℕ :=
  (l.filter (fun p => p.2 = o)).length

inductive JobStatus
  | pending
  | running
  | completed
  | failed
deriving DecidableEq, Repr

/-- One mutation of the shared job record: a status change
(`create_job` / `mark_running` / `mark_completed` / `mark_failed`) or a
counter increment (`increment_progress`). -/
inductive JobEvent
  | setStatus (s : JobStatus)
  | progress (o : Outcome)
deriving DecidableEq, Repr

/-- Pipeline-level environment: whether at least one template blob was
downloaded (otherwise `raise RuntimeError`), and whether the zip /
upload / SAS archival step succeeds. -/
structure RunEnv where
  templatesAvailable : Bool
  archiveOk : Bool
deriving DecidableEq, Repr

/-- `_run_generation` as the sequence of job-store mutations:
`create_job` sets `pending`; `mark_running` runs first; missing
templates raise and are caught by the outer `except` → `mark_failed`;
otherwise every record is processed (each calling
`increment_progress` once), then the archival step runs and
`mark_completed` / `mark_failed` ends the job. -/
def run_generation (env : RunEnv) (cfg : GenConfig) (fs0 : List String)
    (attendees : List AttendeeR) : List JobEvent :=
  [.setStatus .pending, .setStatus .running] ++
    (if env.templatesAvailable then
      ((run_job cfg fs0 attendees).1.map fun p => JobEvent.progress p.2) ++
        [.setStatus (if env.archiveOk then .completed else .failed)]
    else [JobEvent.setStatus .failed])

def statusTrace (events : List JobEvent) : List JobStatus :=
  events.filterMap fun e =>
    match e with
    | .setStatus s => some s
    | .progress _ => none

/-- The `increment_progress` calls of a run, in call order. -/
def progressOutcomes (events : List JobEvent) : List Outcome :=
  events.filterMap fun e =>
    match e with
    | .setStatus _ => none
    | .progress o => some o

/-- A record whose attempt writes its output file whenever it is
absent: the placement lookup (with fallback to the general-attendee
role) succeeds and the composition either succeeds or raises only
after the template byte-copy. -/
def willWrite (cfg : GenConfig) (a : AttendeeR) : Prop :=
  (lookup_pos cfg (resolve_template_role a.ticket_type cfg.types_staff
      cfg.types_speaker)).isSome = true ∧
    cfg.composeResult a ≠ ComposeOutcome.raiseBefore

/-- The transitions the spec's state machine allows. -/
def allowedTransition (a b : JobStatus) : Prop :=
  (a = .pending ∧ b = .running) ∨
    (a = .running ∧ (b = .completed ∨ b = .failed))

instance : DecidableRel allowedTransition := fun a b => by
  unfold allowedTransition; infer_instance

def terminalStatus (s : JobStatus) : Prop :=
  s = .completed ∨ s = .failed

/-! # Theorems -/

/-! ## Helper lemmas -/

theorem pyint_le (q : ℚ) (h : 0 ≤ q) : (pyint q : ℚ) ≤ q := by
  unfold pyint
  rw [if_neg (not_lt.mpr h)]
  exact_mod_cast Int.floor_le q

theorem pyint_nonneg (q : ℚ) (h : 0 ≤ q) : 0 ≤ pyint q := by
  unfold pyint
  rw [if_neg (not_lt.mpr h)]
  exact Int.floor_nonneg.mpr h

theorem pyint_le_of_le (a b : ℚ) (ha : 0 ≤ a) (h : a ≤ b) : (pyint a : ℚ) ≤ b :=
  le_trans (pyint_le a ha) h

theorem adjust_font_size_go_ge_min (sw : Int → ℚ) (mw : ℚ) (minimum : Int) :
    ∀ (fuel : ℕ) (size : Int), (fuel : Int) ≤ size + 1 - minimum →
      minimum ≤ adjust_font_size_go sw mw minimum fuel size
  | 0, _, _ => le_refl _
  | fuel + 1, size, h => by
      unfold adjust_font_size_go
      split
      · omega
      · exact adjust_font_size_go_ge_min sw mw minimum fuel (size - 1) (by omega)

theorem adjust_font_size_ge_min (sw : Int → ℚ) (mw : ℚ) (size minimum : Int) :
    minimum ≤ adjust_font_size sw mw size minimum := by
  unfold adjust_font_size
  by_cases h : minimum ≤ size + 1
  · exact adjust_font_size_go_ge_min sw mw minimum _ size (by omega)
  · rw [Int.toNat_of_nonpos (by omega)]
    exact le_refl _

theorem adjust_font_size_go_fits_or_floor (sw : Int → ℚ) (mw : ℚ) (minimum : Int) :
    ∀ (fuel : ℕ) (size : Int),
      sw (adjust_font_size_go sw mw minimum fuel size) ≤ mw ∨
        adjust_font_size_go sw mw minimum fuel size = minimum
  | 0, _ => Or.inr rfl
  | fuel + 1, size => by
      unfold adjust_font_size_go
      split
      · exact Or.inl (by assumption)
      · exact adjust_font_size_go_fits_or_floor sw mw minimum fuel (size - 1)

theorem adjust_font_size_fits_or_floor (sw : Int → ℚ) (mw : ℚ) (size minimum : Int) :
    sw (adjust_font_size sw mw size minimum) ≤ mw ∨
      adjust_font_size sw mw size minimum = minimum :=
  adjust_font_size_go_fits_or_floor sw mw minimum _ size

theorem adjust_font_size_go_le_or_min (sw : Int → ℚ) (mw : ℚ) (minimum : Int) :
    ∀ (fuel : ℕ) (size : Int),
      adjust_font_size_go sw mw minimum fuel size ≤ size ∨
        adjust_font_size_go sw mw minimum fuel size = minimum
  | 0, _ => Or.inr rfl
  | fuel + 1, size => by
      unfold adjust_font_size_go
      split
      · exact Or.inl (le_refl _)
      · rcases adjust_font_size_go_le_or_min sw mw minimum fuel (size - 1) with h | h
        · exact Or.inl (by omega)
        · exact Or.inr h

theorem adjust_font_size_le_initial (sw : Int → ℚ) (mw : ℚ) (size minimum : Int)
    (h : minimum ≤ size) : adjust_font_size sw mw size minimum ≤ size := by
  rcases adjust_font_size_go_le_or_min sw mw minimum ((size + 1 - minimum).toNat)
    size with h2 | h2
  · exact h2
  · unfold adjust_font_size
    omega

theorem adjust_font_size_go_maximal (sw : Int → ℚ) (mw : ℚ) (minimum : Int) :
    ∀ (fuel : ℕ) (size s : Int), size + 1 - minimum ≤ (fuel : Int) →
      adjust_font_size_go sw mw minimum fuel size < s → s ≤ size →
      ¬ sw s ≤ mw
  | 0, size, s, hfuel, hlo, hhi => by
      simp only [adjust_font_size_go] at hlo
      omega
  | fuel + 1, size, s, hfuel, hlo, hhi => by
      unfold adjust_font_size_go at hlo
      split at hlo
      · omega
      · rcases lt_or_le s size with hs | hs
        · exact adjust_font_size_go_maximal sw mw minimum fuel (size - 1) s
            (by omega) hlo (by omega)
        · have : s = size := le_antisymm hhi hs
          subst this
          assumption

theorem adjust_font_size_maximal (sw : Int → ℚ) (mw : ℚ) (size minimum : Int)
    (s : Int) (hlo : adjust_font_size sw mw size minimum < s) (hhi : s ≤ size) :
    ¬ sw s ≤ mw := by
  unfold adjust_font_size at hlo
  exact adjust_font_size_go_maximal sw mw minimum ((size + 1 - minimum).toNat)
    size s (by omega) hlo hhi

/-! ## Claim C4 — adaptive font fit -/

/-- C4: for every font metric, every positive bounding width and every
text, the fitted size is never below the 8pt floor, the text at the
returned size fits the bounding width unless the returned size is the
floor, and no size above the returned one (up to the initial) fits; and
in `generate_accreditation` the last-name and first-name lines start the
fit at 22pt and the company line at 18pt, all with floor 8pt. -/
theorem C4_adaptive_font_fit (sw : String → Int → ℚ) (mw : ℚ) (_hmw : 0 < mw)
    (fn ln co : String) :
    (∀ text : String, ∀ initial : Int,
      8 ≤ adjust_font_size (sw text) mw initial 8 ∧
      (sw text (adjust_font_size (sw text) mw initial 8) ≤ mw ∨
        adjust_font_size (sw text) mw initial 8 = 8) ∧
      (∀ s : Int, adjust_font_size (sw text) mw initial 8 < s → s ≤ initial →
        ¬ sw text s ≤ mw)) ∧
    (overlayLines sw mw fn ln co).map TextLine.size =
      [adjust_font_size (sw (pyUpper ln)) mw 22 8,
       adjust_font_size (sw (pyUpper fn)) mw 22 8] ++
        (if companyShown co then [adjust_font_size (sw (pyUpper co)) mw 18 8]
         else []) := by
  refine ⟨fun text initial => ⟨?_, ?_, ?_⟩, ?_⟩
  · exact adjust_font_size_ge_min (sw text) mw initial 8
  · exact adjust_font_size_fits_or_floor (sw text) mw initial 8
  · exact fun s h1 h2 => adjust_font_size_maximal (sw text) mw initial 8 s h1 h2
  · by_cases hc : companyShown co <;> simp [overlayLines, hc]

/-- Witness for C4 at a concrete metric (each glyph 10/size wide),
width 100 and concrete names. -/
theorem C4_adaptive_font_fit_witness :
    8 ≤ adjust_font_size ((fun (_ : String) (k : Int) => (k : ℚ) * 10) "GARCIA")
      100 22 8 :=
  ((C4_adaptive_font_fit (fun (_ : String) (k : Int) => (k : ℚ) * 10) 100
    (by norm_num) "ANA" "GARCIA" "ACME").1 "GARCIA" 22).1

/-! ## Claim C8 — text-line omission -/

/-- C8 counterexample: with an empty last-name field the compositor
still calls `drawCentredString` for the last-name line (with the empty
string as text) — the line is drawn, not omitted.  The claim's
assertion that an empty name field results in that text line being
omitted is false on this input. -/
theorem C8_counterexample :
    (overlayLines (fun (_ : String) (k : Int) => (k : ℚ)) 100 "ALICE" "" "ACME").filter
        (fun l => l.kind = LineKind.lastName) =
      [⟨LineKind.lastName, "", 22⟩] := by decide

/-- C8 amended: the company line is drawn iff the company field is
non-empty and its lowercase form is not one of the null-like
placeholders `"nan"`, `"none"`, `""`; the first-name and last-name
lines are always drawn — an empty name field yields a drawn line whose
text is the empty string, not an omitted line. -/
theorem C8_text_line_omission (sw : String → Int → ℚ) (mw : ℚ)
    (fn ln co : String) :
    ((∃ l ∈ overlayLines sw mw fn ln co, l.kind = LineKind.company) ↔
      (co ≠ "" ∧
        ¬(pyLower co = "nan" ∨ pyLower co = "none" ∨ pyLower co = ""))) ∧
    (∃ l ∈ overlayLines sw mw fn ln co,
      l.kind = LineKind.lastName ∧ l.text = (pyUpper ln)) ∧
    (∃ l ∈ overlayLines sw mw fn ln co,
      l.kind = LineKind.firstName ∧ l.text = (pyUpper fn)) := by
  refine ⟨?_, ?_, ?_⟩
  · by_cases hc : companyShown co
    · simp only [overlayLines, if_pos hc]
      simp only [companyShown, Bool.and_eq_true, decide_eq_true_eq,
        Bool.not_eq_true', decide_eq_false_iff_not] at hc
      constructor
      · intro _
        exact hc
      · intro _
        exact ⟨⟨LineKind.company, (pyUpper co),
          adjust_font_size (sw (pyUpper co)) mw 18 8⟩, by simp⟩
    · simp only [overlayLines, if_neg hc]
      simp only [companyShown, Bool.and_eq_true, decide_eq_true_eq,
        Bool.not_eq_true', decide_eq_false_iff_not, not_and] at hc
      constructor
      · intro ⟨l, hl, hk⟩
        simp at hl
        rcases hl with h | h <;> (rw [h] at hk; simp at hk)
      · intro ⟨h1, h2⟩
        exact absurd (hc h1) (by simp [h2])
  · exact ⟨⟨LineKind.lastName, (pyUpper ln),
      adjust_font_size (sw (pyUpper ln)) mw 22 8⟩, by simp [overlayLines]⟩
  · exact ⟨⟨LineKind.firstName, (pyUpper fn),
      adjust_font_size (sw (pyUpper fn)) mw 22 8⟩, by simp [overlayLines]⟩

/-! ## Claim C2 — missing logo handling -/

/-- C2 counterexample: with a logo path supplied but no such file on
disk (`os.path.exists` false everywhere), `_render_png` succeeds and
returns an image with no logo overlay — it does not fail (there is no
`AssetError` anywhere in the code; the guard
`if logo_path and os.path.exists(logo_path)` silently skips the logo).
This refutes the claim that such a call fails with `AssetError`. -/
theorem C2_counterexample :
    (render_png (fun _ => false) (fun _ => none) [] (some "logo.png")
        ⟨0, 0, 0⟩ ⟨255, 255, 255⟩ ⟨0, 0, 0⟩ 0 0 1 0 0).map
      RenderResult.logoApplied = Except.ok false := by
  rfl

/-- C2 amended: when a logo path is supplied but the file does not
exist, the renderer silently omits the logo and successfully produces
the QR image without it; only when the path exists but Pillow cannot
open the image does the call fail (with a generic decode error — no
`AssetError` exists in the code). -/
theorem C2_missing_logo_silently_skipped (fsExists : String → Bool)
    (logoSize : String → Option (ℕ × ℕ)) (matrix : List (List Bool))
    (p : String) (fg bg eye : RGB) (mr ls : ℚ) (cp bc : ℕ) (gr : ℚ)
    (hmissing : fsExists p = false) :
    (∃ res, render_png fsExists logoSize matrix (some p) fg bg eye mr ls cp bc gr =
        Except.ok res ∧ res.logoApplied = false ∧ res.logo = none) ∧
    (logoSize p = none → ∀ fsE2 : String → Bool, fsE2 p = true →
      render_png fsE2 logoSize matrix (some p) fg bg eye mr ls cp bc gr =
        Except.error "PIL.UnidentifiedImageError") := by
  constructor
  · unfold render_png
    simp only [hmissing, Bool.false_eq_true, if_false]
    exact ⟨_, rfl, rfl, rfl⟩
  · intro hsize fsE2 hex
    unfold render_png
    simp only [hex, hsize, if_true]

/-- Witness for C2 at a concrete call. -/
theorem C2_missing_logo_silently_skipped_witness :
    ∃ res, render_png (fun _ => false) (fun _ => none) [[true]] (some "logo.png")
        ⟨0, 0, 0⟩ ⟨255, 255, 255⟩ ⟨0, 0, 0⟩ 0 0 1 0 0 =
      Except.ok res ∧ res.logoApplied = false ∧ res.logo = none :=
  (C2_missing_logo_silently_skipped (fun _ => false) (fun _ => none) [[true]]
    "logo.png" ⟨0, 0, 0⟩ ⟨255, 255, 255⟩ ⟨0, 0, 0⟩ 0 0 1 0 0 (by rfl)).1

/-! ## Claim C9 — render determinism -/

/-- C9: `generate_styled_qr` is deterministic — for any matrix source,
any file-system state, any wall-clock instants `t1`, `t2` and identical
`(data, style)` inputs, two calls return identical raster draw
operations and an identical SVG string; in particular the result does
not depend on ambient time (the `now` parameter reifies it) or on any
randomness (none is available to the embedded code). -/
theorem C9_render_determinism (enc : String → List (List Bool))
    (fsExists : String → Bool) (logoSize : String → Option (ℕ × ℕ))
    (t1 t2 : ℕ) (data : String) (logo_path : Option String)
    (fg_color bg_color : String) (eye_color : Option String)
    (module_roundness logo_scale : ℚ) (cell_px border_cells : ℕ) :
    generate_styled_qr enc fsExists logoSize t1 data logo_path fg_color
        bg_color eye_color module_roundness logo_scale cell_px border_cells =
      generate_styled_qr enc fsExists logoSize t2 data logo_path fg_color
        bg_color eye_color module_roundness logo_scale cell_px border_cells := rfl

/-! ## Claim C5 — logo size cap -/

/-- C5: the logo is scaled by a single ratio (aspect preserved by
construction) so that both scaled dimensions fit within
`min(N * logoScale * cellPx, 0.28 * imageSize)`, and the logo area
never exceeds 28% of the total image area, whatever `logo_scale`
requests. -/
theorem C5_logo_size_cap (n lw lh : ℕ) (logo_scale : ℚ)
    (cell_px border_cells : ℕ) (hlw : 0 < lw) (hlh : 0 < lh)
    (hscale : 0 ≤ logo_scale) :
    0 ≤ (logoFit n lw lh logo_scale cell_px border_cells).new_lw ∧
    0 ≤ (logoFit n lw lh logo_scale cell_px border_cells).new_lh ∧
    ((logoFit n lw lh logo_scale cell_px border_cells).new_lw : ℚ) ≤
      (n : ℚ) * logo_scale * cell_px ∧
    ((logoFit n lw lh logo_scale cell_px border_cells).new_lh : ℚ) ≤
      (n : ℚ) * logo_scale * cell_px ∧
    ((logoFit n lw lh logo_scale cell_px border_cells).new_lw : ℚ) ≤
      (28/100) * (logoFit n lw lh logo_scale cell_px border_cells).img_size ∧
    ((logoFit n lw lh logo_scale cell_px border_cells).new_lh : ℚ) ≤
      (28/100) * (logoFit n lw lh logo_scale cell_px border_cells).img_size ∧
    ((logoFit n lw lh logo_scale cell_px border_cells).new_lw : ℚ) *
        ((logoFit n lw lh logo_scale cell_px border_cells).new_lh : ℚ) ≤
      (28/100) *
        (((logoFit n lw lh logo_scale cell_px border_cells).img_size : ℚ) *
          ((logoFit n lw lh logo_scale cell_px border_cells).img_size : ℚ)) := by
  have himg : (0 : ℚ) ≤ ((n + 2 * border_cells) * cell_px : ℕ) := by positivity
  set img : ℚ := (((n + 2 * border_cells) * cell_px : ℕ) : ℚ) with himg_def
  have hm1q : (0 : ℚ) ≤ (n : ℚ) * logo_scale * cell_px := by positivity
  have hm1 : 0 ≤ pyint ((n : ℚ) * logo_scale * cell_px) := pyint_nonneg _ hm1q
  have hm2q : (0 : ℚ) ≤ img * (28/100) := by positivity
  have hm2 : 0 ≤ pyint (img * (28/100)) := pyint_nonneg _ hm2q
  set M : Int := min (pyint ((n : ℚ) * logo_scale * cell_px))
    (pyint (img * (28/100))) with hM_def
  have hM : 0 ≤ M := le_min hm1 hm2
  have hMq : (0 : ℚ) ≤ (M : ℚ) := by exact_mod_cast hM
  have hMle1 : (M : ℚ) ≤ (n : ℚ) * logo_scale * cell_px := by
    have h1 : M ≤ pyint ((n : ℚ) * logo_scale * cell_px) := min_le_left _ _
    calc (M : ℚ) ≤ (pyint ((n : ℚ) * logo_scale * cell_px) : ℚ) := by
          exact_mod_cast h1
      _ ≤ (n : ℚ) * logo_scale * cell_px := pyint_le _ hm1q
  have hMle2 : (M : ℚ) ≤ (28/100) * img := by
    have h1 : M ≤ pyint (img * (28/100)) := min_le_right _ _
    calc (M : ℚ) ≤ (pyint (img * (28/100)) : ℚ) := by exact_mod_cast h1
      _ ≤ img * (28/100) := pyint_le _ hm2q
      _ = (28/100) * img := by ring
  set ratio : ℚ := min ((M : ℚ) / lw) ((M : ℚ) / lh) with hratio_def
  have hr : 0 ≤ ratio := by
    apply le_min <;> positivity
  have hlwq : (0 : ℚ) < lw := by exact_mod_cast hlw
  have hlhq : (0 : ℚ) < lh := by exact_mod_cast hlh
  have hwM : (lw : ℚ) * ratio ≤ (M : ℚ) := by
    have : ratio ≤ (M : ℚ) / lw := min_le_left _ _
    calc (lw : ℚ) * ratio ≤ (lw : ℚ) * ((M : ℚ) / lw) := by
          exact mul_le_mul_of_nonneg_left this (le_of_lt hlwq)
      _ = (M : ℚ) := by field_simp
  have hhM : (lh : ℚ) * ratio ≤ (M : ℚ) := by
    have : ratio ≤ (M : ℚ) / lh := min_le_right _ _
    calc (lh : ℚ) * ratio ≤ (lh : ℚ) * ((M : ℚ) / lh) := by
          exact mul_le_mul_of_nonneg_left this (le_of_lt hlhq)
      _ = (M : ℚ) := by field_simp
  have hw0 : (0 : ℚ) ≤ (lw : ℚ) * ratio := by positivity
  have hh0 : (0 : ℚ) ≤ (lh : ℚ) * ratio := by positivity
  have hnw0 : 0 ≤ pyint ((lw : ℚ) * ratio) := pyint_nonneg _ hw0
  have hnh0 : 0 ≤ pyint ((lh : ℚ) * ratio) := pyint_nonneg _ hh0
  have hnwM : (pyint ((lw : ℚ) * ratio) : ℚ) ≤ (M : ℚ) := pyint_le_of_le _ _ hw0 hwM
  have hnhM : (pyint ((lh : ℚ) * ratio) : ℚ) ≤ (M : ℚ) := pyint_le_of_le _ _ hh0 hhM
  have hfields :
      (logoFit n lw lh logo_scale cell_px border_cells).new_lw =
          pyint ((lw : ℚ) * ratio) ∧
      (logoFit n lw lh logo_scale cell_px border_cells).new_lh =
          pyint ((lh : ℚ) * ratio) ∧
      ((logoFit n lw lh logo_scale cell_px border_cells).img_size : ℚ) = img := by
    refine ⟨?_, ?_, ?_⟩ <;> simp [logoFit, hM_def, hratio_def, himg_def]
  obtain ⟨hfw, hfh, hfi⟩ := hfields
  rw [hfw, hfh, hfi]
  have hnw0q : (0 : ℚ) ≤ (pyint ((lw : ℚ) * ratio) : ℚ) := by exact_mod_cast hnw0
  have hnh0q : (0 : ℚ) ≤ (pyint ((lh : ℚ) * ratio) : ℚ) := by exact_mod_cast hnh0
  refine ⟨hnw0, hnh0, le_trans hnwM hMle1, le_trans hnhM hMle1,
    le_trans hnwM hMle2, le_trans hnhM hMle2, ?_⟩
  have harea : (pyint ((lw : ℚ) * ratio) : ℚ) * (pyint ((lh : ℚ) * ratio) : ℚ) ≤
      (M : ℚ) * (M : ℚ) := mul_le_mul hnwM hnhM hnh0q hMq
  have himg0 : (0 : ℚ) ≤ img := himg
  nlinarith [mul_le_mul hMle2 hMle2 hMq (by positivity : (0:ℚ) ≤ (28/100) * img),
    mul_nonneg himg0 himg0]

/-- Witness for C5 at a concrete oversized request
(`logo_scale = 2`, a 1000×500 logo on a 21-module matrix). -/
theorem C5_logo_size_cap_witness :
    0 ≤ (logoFit 21 1000 500 2 40 4).new_lw :=
  (C5_logo_size_cap 21 1000 500 2 40 4 (by norm_num) (by norm_num)
    (by norm_num)).1

/-! ## Claim C6 — finder-zone classification -/

theorem mem_dataModuleCells (matrix : List (List Bool)) (rc : ℕ × ℕ) :
    rc ∈ dataModuleCells matrix ↔
      rc.1 < matrix.length ∧ rc.2 < (matrix.getD rc.1 []).length ∧
        (matrix.getD rc.1 []).getD rc.2 false = true ∧
        rc ∉ finder_zones matrix.length := by
  obtain ⟨r, c⟩ := rc
  simp only [dataModuleCells, List.mem_flatten, List.mem_map, List.mem_range]
  constructor
  · rintro ⟨l, ⟨r2, hr2, rfl⟩, hmem⟩
    rw [List.mem_filterMap] at hmem
    obtain ⟨c2, hc2, hg⟩ := hmem
    rw [List.mem_range] at hc2
    split_ifs at hg with h1 h2
    · have hpair := Option.some.inj hg
      have hr' : r2 = r := congrArg Prod.fst hpair
      have hc' : c2 = c := congrArg Prod.snd hpair
      subst hr'
      subst hc'
      exact ⟨hr2, hc2, by simpa using h2, h1⟩
  · rintro ⟨h1, h2, h3, h4⟩
    refine ⟨_, ⟨r, h1, rfl⟩, ?_⟩
    rw [List.mem_filterMap]
    exact ⟨c, List.mem_range.mpr h2, by rw [if_neg h4, h3]; simp⟩

theorem interval_mem_iff (b1 b2 r c : Int) :
    (b1 - 1 ≤ r ∧ r < b1 + 8 ∧ b2 - 1 ≤ c ∧ c < b2 + 8) ↔
      ∃ di : ℕ, di < 7 ∧ ∃ dj : ℕ, dj < 7 ∧
        b1 + di - 1 ≤ r ∧ r ≤ b1 + di + 1 ∧
        b2 + dj - 1 ≤ c ∧ c ≤ b2 + dj + 1 := by
  constructor
  · rintro ⟨h1, h2, h3, h4⟩
    refine ⟨min 6 (r - b1).toNat, by omega, min 6 (c - b2).toNat, by omega,
      ?_, ?_, ?_, ?_⟩ <;> omega
  · rintro ⟨di, hdi, dj, hdj, h1, h2, h3, h4⟩
    omega

/-- C6: for every matrix of size `N ≥ 21`, the cells classified as
finder zone are exactly the union of the three 7×7 corner blocks at
`(0,0)`, `(0,N−7)`, `(N−7,0)` each expanded by a one-cell border
(clipped to the grid); no finder-zone cell is drawn as an ordinary data
module, and a cell in the grid is drawn as a rounded data module iff it
is set and outside the finder zones. -/
theorem C6_finder_zone_classification (matrix : List (List Bool)) (n : ℕ)
    (hn : n = matrix.length) (hsize : 21 ≤ n) :
    finder_zones n = specFinderZones n ∧
    (∀ rc ∈ finder_zones n, rc ∉ dataModuleCells matrix) ∧
    (∀ r < n, ∀ c < n, ((r, c) ∈ dataModuleCells matrix ↔
      (cellAt matrix r c = true ∧ (r, c) ∉ finder_zones n))) := by
  have hs7 : 7 ≤ n := by omega
  subst hn
  refine ⟨?_, ?_, ?_⟩
  · ext ⟨r, c⟩
    simp only [finder_zones, specFinderZones, Finset.mem_filter, List.mem_range]
    refine and_congr_right fun _ => ?_
    refine exists_congr fun b => ?_
    refine and_congr_right fun _ => ?_
    exact interval_mem_iff b.1 b.2 (r : Int) (c : Int)
  · intro rc hrc hmem
    rw [mem_dataModuleCells] at hmem
    exact hmem.2.2.2 hrc
  · intro r hr c _
    rw [mem_dataModuleCells]
    simp only [cellAt]
    constructor
    · rintro ⟨_, _, h3, h4⟩
      exact ⟨h3, h4⟩
    · rintro ⟨h3, h4⟩
      refine ⟨hr, ?_, h3, h4⟩
      by_contra hlen
      push_neg at hlen
      rw [List.getD_eq_default _ _ hlen] at h3
      exact Bool.false_ne_true h3

/-- Witness for C6 on a concrete 21×21 matrix. -/
theorem C6_finder_zone_classification_witness :
    finder_zones 21 = specFinderZones 21 :=
  (C6_finder_zone_classification (List.replicate 21 (List.replicate 21 true)) 21
    (by simp) (by norm_num)).1

/-! ## Pipeline helper lemmas -/

theorem run_job_nil (cfg : GenConfig) (fs : List String) :
    run_job cfg fs [] = ([], fs) := rfl

theorem run_job_cons (cfg : GenConfig) (fs : List String) (a : AttendeeR)
    (rest : List AttendeeR) :
    run_job cfg fs (a :: rest) =
      ((a, (process_one cfg fs a).1) ::
          (run_job cfg (process_one cfg fs a).2 rest).1,
        (run_job cfg (process_one cfg fs a).2 rest).2) := rfl

theorem countOutcome_nil (o : Outcome) : countOutcome o [] = 0 := rfl

theorem countOutcome_cons (o o2 : Outcome) (a : AttendeeR)
    (l : List (AttendeeR × Outcome)) :
    countOutcome o ((a, o2) :: l) =
      (if o2 = o then 1 else 0) + countOutcome o l := by
  by_cases h : o2 = o <;>
    simp [countOutcome, List.filter_cons, h, Nat.add_comm]

/-! ## Claim C1 — incremental resumability -/

theorem process_one_fs_superset (cfg : GenConfig) (fs : List String)
    (a : AttendeeR) (p : String) (hp : p ∈ fs) :
    p ∈ (process_one cfg fs a).2 := by
  unfold process_one
  split_ifs <;> first
    | exact hp
    | exact List.mem_cons_of_mem _ hp

theorem run_job_fs_superset (cfg : GenConfig) (attendees : List AttendeeR) :
    ∀ (fs : List String) (p : String), p ∈ fs →
      p ∈ (run_job cfg fs attendees).2 := by
  induction attendees with
  | nil => intro fs p hp; exact hp
  | cons a rest ih =>
      intro fs p hp
      rw [run_job_cons]
      exact ih (process_one cfg fs a).2 p (process_one_fs_superset cfg fs a p hp)

theorem process_one_creates (cfg : GenConfig) (fs : List String) (a : AttendeeR)
    (hw : willWrite cfg a) : output_pdf_name a ∈ (process_one cfg fs a).2 := by
  unfold process_one
  split_ifs with h1 h2 h3 h4
  · exact h1.2
  · rw [hw.1] at h2
    exact absurd h2 (by simp)
  · exact List.mem_cons_self _ _
  · exact List.mem_cons_self _ _
  · cases hcr : cfg.composeResult a
    · exact absurd hcr h3
    · exact absurd hcr hw.2
    · exact absurd hcr h4

theorem run_job_creates (cfg : GenConfig) (attendees : List AttendeeR) :
    ∀ (fs : List String), ∀ a ∈ attendees, willWrite cfg a →
      output_pdf_name a ∈ (run_job cfg fs attendees).2 := by
  induction attendees with
  | nil => intro fs a ha; exact absurd ha (List.not_mem_nil a)
  | cons b rest ih =>
      intro fs a ha hw
      rw [run_job_cons]
      rcases List.mem_cons.mp ha with rfl | ha2
      · exact run_job_fs_superset cfg rest _ _ (process_one_creates cfg fs a hw)
      · exact ih _ a ha2 hw

theorem run_job_saturated (cfg : GenConfig) (hinc : cfg.incremental = true) :
    ∀ (attendees : List AttendeeR) (fs : List String),
      (∀ a ∈ attendees, willWrite cfg a → output_pdf_name a ∈ fs) →
      countOutcome .generated (run_job cfg fs attendees).1 = 0 ∧
      (run_job cfg fs attendees).2 = fs ∧
      ∀ p ∈ (run_job cfg fs attendees).1,
        output_pdf_name p.1 ∈ fs → p.2 = Outcome.skipped := by
  intro attendees
  induction attendees with
  | nil =>
      intro fs _
      exact ⟨rfl, rfl, fun p hp => absurd hp (List.not_mem_nil p)⟩
  | cons a rest ih =>
      intro fs hsat
      have hstep : process_one cfg fs a = (Outcome.skipped, fs) ∨
          (process_one cfg fs a = (Outcome.failedRec, fs) ∧
            output_pdf_name a ∉ fs) := by
        unfold process_one
        split_ifs with h1 h2 h3 h4
        · exact Or.inl rfl
        · exact Or.inr ⟨rfl, fun hmem => h1 ⟨hinc, hmem⟩⟩
        · exact absurd (hsat a (List.mem_cons_self a rest)
            ⟨Option.ne_none_iff_isSome.mp (by simpa using h2),
              by simp [h3]⟩)
            (fun hmem => h1 ⟨hinc, hmem⟩)
        · exact absurd (hsat a (List.mem_cons_self a rest)
            ⟨Option.ne_none_iff_isSome.mp (by simpa using h2),
              by simp [h4]⟩)
            (fun hmem => h1 ⟨hinc, hmem⟩)
        · exact Or.inr ⟨rfl, fun hmem => h1 ⟨hinc, hmem⟩⟩
      have hfs2 : (process_one cfg fs a).2 = fs := by
        rcases hstep with h | ⟨h, _⟩ <;> rw [h]
      have hout : (process_one cfg fs a).1 = Outcome.skipped ∨
          (process_one cfg fs a).1 = Outcome.failedRec := by
        rcases hstep with h | ⟨h, _⟩ <;> rw [h] <;> simp
      have hrest := ih fs (fun b hb hw => hsat b (List.mem_cons_of_mem a hb) hw)
      refine ⟨?_, ?_, ?_⟩
      · rw [run_job_cons]
        show countOutcome Outcome.generated ((a, (process_one cfg fs a).1) ::
          (run_job cfg (process_one cfg fs a).2 rest).1) = 0
        rw [countOutcome_cons, hfs2]
        rcases hout with h | h <;> rw [h] <;> simp [hrest.1]
      · rw [run_job_cons]
        show (run_job cfg (process_one cfg fs a).2 rest).2 = fs
        rw [hfs2, hrest.2.1]
      · intro p hp hmem
        rw [run_job_cons] at hp
        rcases List.mem_cons.mp hp with rfl | hp2
        · rcases hstep with h | ⟨h, hnot⟩
          · rw [h]
          · exact absurd hmem hnot
        · rw [hfs2] at hp2
          exact hrest.2.2 p hp2 hmem

/-- C1: with incremental mode enabled, running the same job a second
time over the output directory produced by the first run generates
nothing — the generated count of the second run is zero, the file set
is unchanged (no badge is regenerated), and every record whose output
file already exists is counted as skipped. -/
theorem C1_incremental_resumability (cfg : GenConfig) (fs0 : List String)
    (attendees : List AttendeeR) (hinc : cfg.incremental = true) :
    countOutcome .generated
      (run_job cfg (run_job cfg fs0 attendees).2 attendees).1 = 0 ∧
    (run_job cfg (run_job cfg fs0 attendees).2 attendees).2 =
      (run_job cfg fs0 attendees).2 ∧
    ∀ p ∈ (run_job cfg (run_job cfg fs0 attendees).2 attendees).1,
      output_pdf_name p.1 ∈ (run_job cfg fs0 attendees).2 →
        p.2 = Outcome.skipped :=
  run_job_saturated cfg hinc attendees (run_job cfg fs0 attendees).2
    (fun a ha hw => run_job_creates cfg attendees fs0 a ha hw)

/-- Witness for C1 at a concrete one-record job. -/
theorem C1_incremental_resumability_witness :
    countOutcome .generated
      (run_job ⟨true, fun _ => some (0, 0, 100), [], [], fun _ => ComposeOutcome.ok⟩
        (run_job ⟨true, fun _ => some (0, 0, 100), [], [], fun _ => ComposeOutcome.ok⟩ []
          [⟨"A1", "Ana", "Diaz", "General", ""⟩]).2
        [⟨"A1", "Ana", "Diaz", "General", ""⟩]).1 = 0 :=
  (C1_incremental_resumability ⟨true, fun _ => some (0, 0, 100), [], [],
    fun _ => ComposeOutcome.ok⟩ [] [⟨"A1", "Ana", "Diaz", "General", ""⟩] rfl).1



/-! ## Claim C3 — failure isolation and counter completeness -/

theorem run_job_fst (cfg : GenConfig) (attendees : List AttendeeR) :
    ∀ fs : List String, (run_job cfg fs attendees).1.map Prod.fst = attendees := by
  induction attendees with
  | nil => intro fs; rfl
  | cons a rest ih =>
      intro fs
      rw [run_job_cons]
      show a :: ((run_job cfg (process_one cfg fs a).2 rest).1.map Prod.fst) =
        a :: rest
      rw [ih]

theorem run_job_length (cfg : GenConfig) (attendees : List AttendeeR)
    (fs : List String) : (run_job cfg fs attendees).1.length = attendees.length := by
  have := congrArg List.length (run_job_fst cfg attendees fs)
  simpa using this

theorem countOutcome_sum (l : List (AttendeeR × Outcome)) :
    countOutcome .generated l + countOutcome .skipped l +
      countOutcome .failedRec l = l.length := by
  induction l with
  | nil => rfl
  | cons p rest ih =>
      obtain ⟨a, o⟩ := p
      cases o <;> rw [countOutcome_cons, countOutcome_cons, countOutcome_cons] <;>
        simp <;> omega

theorem statusTrace_progress_map (pairs : List (AttendeeR × Outcome)) :
    (pairs.map fun p => JobEvent.progress p.2).filterMap
      (fun e => match e with | .setStatus s => some s | .progress _ => none) =
      ([] : List JobStatus) := by
  induction pairs with
  | nil => rfl
  | cons p rest ih => simp [ih]

theorem statusTrace_run_generation (env : RunEnv) (cfg : GenConfig)
    (fs0 : List String) (attendees : List AttendeeR) :
    statusTrace (run_generation env cfg fs0 attendees) =
      if env.templatesAvailable then
        [JobStatus.pending, JobStatus.running,
          if env.archiveOk then JobStatus.completed else JobStatus.failed]
      else [JobStatus.pending, JobStatus.running, JobStatus.failed] := by
  by_cases ht : env.templatesAvailable <;>
    simp [run_generation, statusTrace, ht, List.filterMap_append,
      statusTrace_progress_map]

/-- C3: in a batch run that reaches the archival step, every record is
attempted exactly once and in order (one bad record never aborts the
batch), each record contributes exactly one of the three outcomes so
that `generated + skipped + failed` equals the record count, a record
whose composition raises (and that was neither skipped nor missing its
placement) is counted as exactly one `failed` — whether the raise comes
before or after the template byte-copy of pdf_service.py line 130 (in
the latter case the partial output file stays on disk) — and the job
ends `completed`. -/
theorem C3_failure_isolation (env : RunEnv) (cfg : GenConfig)
    (fs0 : List String) (attendees : List AttendeeR)
    (htempl : env.templatesAvailable = true) (harch : env.archiveOk = true) :
    ((run_job cfg fs0 attendees).1.map Prod.fst = attendees) ∧
    (countOutcome .generated (run_job cfg fs0 attendees).1 +
        countOutcome .skipped (run_job cfg fs0 attendees).1 +
        countOutcome .failedRec (run_job cfg fs0 attendees).1 =
      attendees.length) ∧
    (∀ (fs : List String) (a : AttendeeR),
      ¬(cfg.incremental = true ∧ output_pdf_name a ∈ fs) →
      (lookup_pos cfg (resolve_template_role a.ticket_type cfg.types_staff
        cfg.types_speaker)).isSome = true →
      cfg.composeResult a ≠ ComposeOutcome.ok →
      (process_one cfg fs a).1 = Outcome.failedRec) ∧
    (statusTrace (run_generation env cfg fs0 attendees)).getLast? =
      some JobStatus.completed := by
  refine ⟨run_job_fst cfg attendees fs0, ?_, ?_, ?_⟩
  · rw [countOutcome_sum, run_job_length]
  · intro fs a h1 h2 h3
    unfold process_one
    rw [if_neg h1, if_neg (by simp [h2]), if_neg h3]
    by_cases h4 : cfg.composeResult a = ComposeOutcome.raiseAfter
    · rw [if_pos h4]
    · rw [if_neg h4]
  · rw [statusTrace_run_generation, if_pos htempl, if_pos harch]
    rfl

/-- Witness for C3: one-record batch whose composition fails; the job
still completes. -/
theorem C3_failure_isolation_witness :
    (statusTrace (run_generation ⟨true, true⟩
        ⟨true, fun _ => some (0, 0, 100), [], [], fun _ => ComposeOutcome.raiseAfter⟩ []
        [⟨"A1", "Ana", "Diaz", "General", ""⟩])).getLast? =
      some JobStatus.completed :=
  (C3_failure_isolation ⟨true, true⟩
    ⟨true, fun _ => some (0, 0, 100), [], [], fun _ => ComposeOutcome.raiseAfter⟩ []
    [⟨"A1", "Ana", "Diaz", "General", ""⟩] rfl rfl).2.2.2

/-! ## Claim C7 — job state-machine monotonicity -/

theorem progressOutcomes_run_generation (env : RunEnv) (cfg : GenConfig)
    (fs0 : List String) (attendees : List AttendeeR)
    (htempl : env.templatesAvailable = true) :
    progressOutcomes (run_generation env cfg fs0 attendees) =
      (run_job cfg fs0 attendees).1.map (fun p => p.2) := by
  simp only [run_generation, htempl, if_true, progressOutcomes,
    List.filterMap_append, List.filterMap_map]
  induction (run_job cfg fs0 attendees).1 with
  | nil => simp
  | cons p rest ih => simpa using ih

/-- C7: the status trace of every run is exactly
`pending → running → t` with `t` terminal; every adjacent transition is
an allowed one; `running` is set exactly once; no allowed transition
leaves a terminal state; and `completed` occurs only when the templates
were available and the archival step succeeded, only as the very last
event, and only after all `total` per-record progress increments. -/
theorem C7_job_state_machine (env : RunEnv) (cfg : GenConfig)
    (fs0 : List String) (attendees : List AttendeeR) :
    (∃ t : JobStatus, terminalStatus t ∧
      statusTrace (run_generation env cfg fs0 attendees) =
        [JobStatus.pending, JobStatus.running, t]) ∧
    List.Chain' allowedTransition
      (statusTrace (run_generation env cfg fs0 attendees)) ∧
    (statusTrace (run_generation env cfg fs0 attendees)).count
      JobStatus.running = 1 ∧
    (∀ a b : JobStatus, allowedTransition a b → ¬ terminalStatus a) ∧
    (JobEvent.setStatus JobStatus.completed ∈
        run_generation env cfg fs0 attendees →
      env.templatesAvailable = true ∧ env.archiveOk = true ∧
      (run_generation env cfg fs0 attendees).getLast? =
        some (JobEvent.setStatus JobStatus.completed) ∧
      (progressOutcomes (run_generation env cfg fs0 attendees)).length =
        attendees.length) := by
  have htr := statusTrace_run_generation env cfg fs0 attendees
  refine ⟨?_, ?_, ?_, ?_, ?_⟩
  · by_cases ht : env.templatesAvailable
    · by_cases ha : env.archiveOk
      · exact ⟨JobStatus.completed, Or.inl rfl, by rw [htr, if_pos ht, if_pos ha]⟩
      · exact ⟨JobStatus.failed, Or.inr rfl, by rw [htr, if_pos ht, if_neg ha]⟩
    · exact ⟨JobStatus.failed, Or.inr rfl, by rw [htr, if_neg ht]⟩
  · rw [htr]
    by_cases ht : env.templatesAvailable <;> by_cases ha : env.archiveOk <;>
      simp [ht, ha, List.chain'_cons, allowedTransition]
  · rw [htr]
    by_cases ht : env.templatesAvailable <;> by_cases ha : env.archiveOk <;>
      simp [ht, ha]
  · intro a b hab ht
    rcases hab with ⟨rfl, _⟩ | ⟨rfl, _⟩ <;>
      rcases ht with h | h <;> exact JobStatus.noConfusion h
  · intro hmem
    by_cases ht : env.templatesAvailable
    · by_cases ha : env.archiveOk
      · refine ⟨ht, ha, ?_, ?_⟩
        · simp only [run_generation, ht, if_true, ha]
          rw [← List.append_assoc, List.getLast?_concat]
        · rw [progressOutcomes_run_generation env cfg fs0 attendees ht]
          rw [List.length_map, run_job_length]
      · exfalso
        simp [run_generation, ht, ha] at hmem
    · exfalso
      simp [run_generation, ht] at hmem

/-- Witness for C7 at a concrete one-record run. -/
theorem C7_job_state_machine_witness :
    ∃ t : JobStatus, terminalStatus t ∧
      statusTrace (run_generation ⟨true, true⟩
          ⟨true, fun _ => some (0, 0, 100), [], [], fun _ => ComposeOutcome.ok⟩ []
          [⟨"A1", "Ana", "Diaz", "General", ""⟩]) =
        [JobStatus.pending, JobStatus.running, t] :=
  (C7_job_state_machine ⟨true, true⟩ ⟨true, fun _ => some (0, 0, 100), [], [],
    fun _ => ComposeOutcome.ok⟩ [] [⟨"A1", "Ana", "Diaz", "General", ""⟩]).1

/-- Witness for C8 at concrete fields. -/
theorem C8_text_line_omission_witness :
    ∃ l ∈ overlayLines (fun (_ : String) (k : Int) => (k : ℚ)) 100
        "Ana" "Diaz" "Acme",
      l.kind = LineKind.lastName ∧ l.text = (pyUpper "Diaz") :=
  (C8_text_line_omission (fun (_ : String) (k : Int) => (k : ℚ)) 100
    "Ana" "Diaz" "Acme").2.1

/-! ## Claim C10 — attendee ingestion invariant -/

theorem mem_iter_attendees (cfg : SheetCfg) (rows : List Row) (a : AttendeeR) :
    a ∈ iter_attendees cfg rows ↔
      ∃ row ∈ rows, rowValid (rowToRecord cfg row) = true ∧
        a = rowToRecord cfg row := by
  simp only [iter_attendees, List.mem_filterMap]
  constructor
  · rintro ⟨row, hrow, hg⟩
    split_ifs at hg with h
    · exact ⟨row, hrow, h, (Option.some.inj hg).symm⟩
  · rintro ⟨row, hrow, hvalid, rfl⟩
    exact ⟨row, hrow, by rw [if_pos hvalid]⟩

/-- C10: every record returned by `iter_attendees` has non-empty id,
first and last name, the id is never `"nan"`/`"none"`
(case-insensitively), and the normalized company field is the empty
string whenever the source cell is missing (or the column absent) or a
null-like value. -/
theorem C10_attendee_ingestion (cfg : SheetCfg) (rows : List Row) :
    (∀ a ∈ iter_attendees cfg rows,
      a.id ≠ "" ∧ pyLower a.id ≠ "nan" ∧ pyLower a.id ≠ "none" ∧
        a.first_name ≠ "" ∧ a.last_name ≠ "") ∧
    (∀ row : Row,
      (cfg.hasCompanyCol = false ∨ row.companyCell = Cell.missing ∨
        row.companyCell = Cell.pynone ∨ row.companyCell = Cell.nanval ∨
        pyLower (cellStr "None" row.companyCell) = "nan" ∨
        pyLower (cellStr "None" row.companyCell) = "none" ∨
        pyLower (cellStr "None" row.companyCell) = "") →
      (rowToRecord cfg row).company = "") := by
  constructor
  · intro a ha
    rw [mem_iter_attendees] at ha
    obtain ⟨row, _, hvalid, rfl⟩ := ha
    simp only [rowValid, Bool.not_eq_true', decide_eq_false_iff_not] at hvalid
    push_neg at hvalid
    exact hvalid
  · intro row h
    simp only [rowToRecord]
    unfold rowCompany
    rcases h with h | h | h | h | h | h | h
    · simp [h, cellTruthy]
    · by_cases hc : cfg.hasCompanyCol <;> simp [hc, h, cellTruthy]
    · by_cases hc : cfg.hasCompanyCol <;> simp [hc, h, cellTruthy]
    · by_cases hc : cfg.hasCompanyCol <;>
        simp [hc, h, cellTruthy, cellStr,
          show pyLower "nan" = "nan" from by decide]
    · by_cases hc : cfg.hasCompanyCol <;> simp [hc, h, cellTruthy]
    · by_cases hc : cfg.hasCompanyCol <;> simp [hc, h, cellTruthy]
    · by_cases hc : cfg.hasCompanyCol <;> simp [hc, h, cellTruthy]

/-- Witness for C10: a concrete sheet with one valid row (its company
cell is pandas `NaN`, normalized to the empty string). -/
theorem C10_attendee_ingestion_witness :
    (⟨"A1", "Ana", "Diaz", "General", ""⟩ : AttendeeR).id ≠ "" ∧
    pyLower (⟨"A1", "Ana", "Diaz", "General", ""⟩ : AttendeeR).id ≠ "nan" ∧
    pyLower (⟨"A1", "Ana", "Diaz", "General", ""⟩ : AttendeeR).id ≠ "none" ∧
    (⟨"A1", "Ana", "Diaz", "General", ""⟩ : AttendeeR).first_name ≠ "" ∧
    (⟨"A1", "Ana", "Diaz", "General", ""⟩ : AttendeeR).last_name ≠ "" :=
  (C10_attendee_ingestion ⟨true, true⟩
    [⟨Cell.text "A1", Cell.text "Ana", Cell.text "Diaz", Cell.text "General",
      Cell.nanval⟩]).1 ⟨"A1", "Ana", "Diaz", "General", ""⟩ (by decide)

end QRGen
